import Mathlib

/-!
Verification of the microps user-space TCP/IP stack against its
natural-language specification.  Each section shallowly embeds the C
functions of one subsystem (src/tcp.c, src/arp.c, the IP layer, src/udp.c,
src/platform/linux/sched.c) as executable Lean definitions and proves or
refutes the specified properties.  Machine integers are modelled as Nat
with explicit reductions modulo 2^16, 2^32 or 2^64 exactly where the C
performs unsigned arithmetic.
-/

namespace Microps

/-- 2^16, the modulus of C uint16_t arithmetic. -/
def U16 : Nat := 65536

/-- 2^32, the modulus of C uint32_t / unsigned int arithmetic. -/
def U32 : Nat := 4294967296

/-- 2^64, the modulus of C size_t arithmetic on the 64-bit Linux targets. -/
def U64 : Nat := 18446744073709551616

/-- uint32_t subtraction a - b (operands already reduced mod 2^32). -/
def sub32 (a b : Nat) : Nat := (a + U32 - b % U32) % U32

/-- hton16 / ntoh16: byte swap of a uint16_t value (util.h helper used
throughout the stack; the targets are little-endian). -/
def hton16 (v : Nat) : Nat := (v % 256) * 256 + (v / 256) % 256

/-- ntoh32: byte swap of a uint32_t value. -/
def ntoh32 (v : Nat) : Nat :=
  (v % 256) * 16777216 + (v / 256 % 256) * 65536 + (v / 65536 % 256) * 256 + v / 16777216 % 256

/-! ## Constants from src/net.h and the IP layer -/

def NET_DEVICE_TYPE_ETHERNET : Nat := 2
def NET_DEVICE_FLAG_NEED_ARP : Nat := 256
def NET_IFACE_FAMILY_IP : Nat := 1
def IP_ADDR_ANY : Nat := 0
def IP_ADDR_BROADCAST : Nat := 4294967295

/-- Modelled from the spec: ip.h is not under src/.  The emitted IPv4 header
is the fixed 20-byte minimum (spec section 4.5 step 6 and section 6). -/
def IP_HDR_SIZE_MIN : Nat := 20

/-- Modelled from the spec: ip.h is not under src/.  The maximum IP payload
is the 65535-byte maximum total length minus the 20-byte header. -/
def IP_PAYLOAD_SIZE_MAX : Nat := 65515

/-! ## TCP (src/tcp.c)

The shallow embedding keeps the fields of struct tcp_pcb and struct
tcp_segment_info that the segment-arrival path reads and writes.  Sequence
numbers are uint32_t values (Nat below 2^32), windows uint16_t values. -/

def TCP_FLG_FIN : Nat := 1
def TCP_FLG_SYN : Nat := 2
def TCP_FLG_RST : Nat := 4
def TCP_FLG_PSH : Nat := 8
def TCP_FLG_ACK : Nat := 16
def TCP_FLG_URG : Nat := 32

/-- TCP_FLG_ISSET(x, y) = ((x & 0x3f) & (y)) ? 1 : 0. -/
def TCP_FLG_ISSET (x y : Nat) : Bool := (Nat.land (Nat.land x 63) y) != 0

def TCP_PCB_STATE_FREE : Nat := 0
def TCP_PCB_STATE_CLOSED : Nat := 1
def TCP_PCB_STATE_LISTEN : Nat := 2
def TCP_PCB_STATE_SYN_SENT : Nat := 3
def TCP_PCB_STATE_SYN_RECEIVED : Nat := 4
def TCP_PCB_STATE_ESTABLISHED : Nat := 5

/-- struct tcp_segment_info: the normalised segment record built by
tcp_input and consumed by tcp_segment_arrives. -/
structure TcpSegmentInfo where
  seq : Nat
  ack : Nat
  len : Nat
  wnd : Nat
  up : Nat
deriving Repr, DecidableEq

/-- The fields of struct tcp_pcb that the segment-arrival ACK/sequence
processing reads and writes. -/
structure TcpPcbVars where
  state : Nat
  snd_una : Nat
  snd_nxt : Nat
  snd_wnd : Nat
  snd_wl1 : Nat
  snd_wl2 : Nat
  rcv_nxt : Nat
  rcv_wnd : Nat
deriving Repr, DecidableEq

/-- A segment handed to ip_output by tcp_output_segment, identified by the
header fields that the sending paths choose. -/
structure TcpOutSeg where
  seq : Nat
  ack : Nat
  flg : Nat
  wnd : Nat
deriving Repr, DecidableEq

/-- tcp_output(pcb, flg, NULL, 0): a segment without data, sequence number
snd.nxt (no SYN flag involved here), ack rcv.nxt, window rcv.wnd. -/
def tcp_output_ctl (pcb : TcpPcbVars) (flg : Nat) : TcpOutSeg :=
  { seq := pcb.snd_nxt, ack := pcb.rcv_nxt, flg := flg, wnd := pcb.rcv_wnd }

/-- First check (sequence number acceptability) of tcp_segment_arrives for
SYN_RECEIVED / ESTABLISHED, src/tcp.c lines 524-550.  The sum
rcv.nxt + rcv.wnd and seg.seq + seg.len - 1 are uint32_t additions
(mod 2^32); the comparisons are plain unsigned comparisons. -/
def tcp_acceptable (rcv_nxt rcv_wnd seq len : Nat) : Bool :=
  if len = 0 then
    if rcv_wnd = 0 then
      seq == rcv_nxt
    else
      decide (rcv_nxt ≤ seq) && decide (seq < (rcv_nxt + rcv_wnd) % U32)
  else
    if rcv_wnd = 0 then
      false
    else
      (decide (rcv_nxt ≤ seq) && decide (seq < (rcv_nxt + rcv_wnd) % U32)) ||
      (decide (rcv_nxt ≤ (seq + len - 1) % U32) &&
       decide ((seq + len - 1) % U32 < (rcv_nxt + rcv_wnd) % U32))

/-- The whole first check of tcp_segment_arrives (src/tcp.c lines 521-557):
returns whether processing continues, the control segments emitted, and the
PCB afterwards (unchanged in every branch of this step). -/
def tcp_check_seq (pcb : TcpPcbVars) (flags : Nat) (seg : TcpSegmentInfo) :
    Bool × List TcpOutSeg × TcpPcbVars :=
  if tcp_acceptable pcb.rcv_nxt pcb.rcv_wnd seg.seq seg.len then
    (true, [], pcb)
  else if TCP_FLG_ISSET flags TCP_FLG_RST then
    (false, [], pcb)
  else
    (false, [tcp_output_ctl pcb TCP_FLG_ACK], pcb)

/-- ESTABLISHED arm of the fifth check of tcp_segment_arrives
(src/tcp.c lines 606-628): ACK processing and window update.  Returns the
PCB afterwards and the control segments emitted. -/
def tcp_established_ack (pcb : TcpPcbVars) (seg : TcpSegmentInfo) :
    TcpPcbVars × List TcpOutSeg :=
  if pcb.snd_una < seg.ack ∧ seg.ack ≤ pcb.snd_nxt then
    let p1 := { pcb with snd_una := seg.ack }
    if p1.snd_wl1 < seg.seq ∨ (p1.snd_wl1 = seg.seq ∧ p1.snd_wl2 ≤ seg.ack) then
      ({ p1 with snd_wnd := seg.wnd, snd_wl1 := seg.seq, snd_wl2 := seg.ack }, [])
    else
      (p1, [])
  else if seg.ack < pcb.snd_una then
    (pcb, [])
  else if pcb.snd_nxt < seg.ack then
    (pcb, [tcp_output_ctl pcb TCP_FLG_ACK])
  else
    (pcb, [])

/-- Result of the fifth check of tcp_segment_arrives. -/
structure TcpAckResult where
  pcb : TcpPcbVars
  out : List TcpOutSeg
  woke : Bool
deriving Repr, DecidableEq

/-- Fifth check of tcp_segment_arrives (src/tcp.c lines 586-631) for a PCB
in SYN_RECEIVED or ESTABLISHED: the ACK-flag gate, the SYN_RECEIVED
transition (with fall-through to the ESTABLISHED processing), and the
ESTABLISHED ACK processing. -/
def tcp_check_ack (pcb : TcpPcbVars) (flags : Nat) (seg : TcpSegmentInfo) : TcpAckResult :=
  if TCP_FLG_ISSET flags TCP_FLG_ACK = false then
    { pcb := pcb, out := [], woke := false }
  else if pcb.state = TCP_PCB_STATE_SYN_RECEIVED then
    if pcb.snd_una ≤ seg.ack ∧ seg.ack ≤ pcb.snd_nxt then
      let p1 := { pcb with state := TCP_PCB_STATE_ESTABLISHED }
      let r := tcp_established_ack p1 seg
      { pcb := r.1, out := r.2, woke := true }
    else
      { pcb := pcb, out := [{ seq := seg.ack, ack := 0, flg := TCP_FLG_RST, wnd := 0 }],
        woke := false }
  else if pcb.state = TCP_PCB_STATE_ESTABLISHED then
    let r := tcp_established_ack pcb seg
    { pcb := r.1, out := r.2, woke := false }
  else
    { pcb := pcb, out := [], woke := false }

/-- One iteration of the tcp_send transmission loop
(src/tcp.c lines 905-938).  cap is computed in unsigned int arithmetic as
snd.wnd - (snd.nxt - snd.una); none means cap was zero and the task
sleeps, some (slen, pcb) means a data segment of slen bytes was sent and
snd.nxt advanced. -/
def tcp_send_cap (pcb : TcpPcbVars) : Nat :=
  (pcb.snd_wnd + U32 - sub32 pcb.snd_nxt pcb.snd_una) % U32

def tcp_send_iter (pcb : TcpPcbVars) (mss remaining : Nat) :
    Option (Nat × TcpPcbVars) :=
  let cap := tcp_send_cap pcb
  if cap = 0 then
    none
  else
    let slen := min (min mss remaining) cap
    some (slen, { pcb with snd_nxt := (pcb.snd_nxt + slen) % U32 })

/-- The instants a tcp_send call can observe: interleavings, under the
global TCP mutex, of tcp_send loop iterations and ACK processing of
arriving segments on the same ESTABLISHED PCB. -/
inductive TcpSendReach : TcpPcbVars → TcpPcbVars → Prop
| refl (p : TcpPcbVars) : TcpSendReach p p
| send (p q r : TcpPcbVars) (mss remaining slen : Nat) :
    TcpSendReach p q → tcp_send_iter q mss remaining = some (slen, r) →
    TcpSendReach p r
| ack (p q : TcpPcbVars) (seg : TcpSegmentInfo) :
    TcpSendReach p q → seg.ack < U32 → seg.wnd < U16 →
    TcpSendReach p (tcp_established_ack q seg).1

/-- As TcpSendReach, but every ACK step that both passes the
snd.una < seg.ack <= snd.nxt test and the window-update test keeps the
advertised window at least as large as the data still in flight
(the peer never shrinks the window below snd.nxt - seg.ack). -/
inductive TcpSendReachNS : TcpPcbVars → TcpPcbVars → Prop
| refl (p : TcpPcbVars) : TcpSendReachNS p p
| send (p q r : TcpPcbVars) (mss remaining slen : Nat) :
    TcpSendReachNS p q → tcp_send_iter q mss remaining = some (slen, r) →
    TcpSendReachNS p r
| ack (p q : TcpPcbVars) (seg : TcpSegmentInfo) :
    TcpSendReachNS p q → seg.ack < U32 → seg.wnd < U16 →
    (q.snd_una < seg.ack → seg.ack ≤ q.snd_nxt →
      (q.snd_wl1 < seg.seq ∨ (q.snd_wl1 = seg.seq ∧ q.snd_wl2 ≤ seg.ack)) →
      sub32 q.snd_nxt seg.ack ≤ seg.wnd) →
    TcpSendReachNS p (tcp_established_ack q seg).1

/-- Well-formedness of the send variables: uint32_t / uint16_t ranges. -/
def TcpSndWF (p : TcpPcbVars) : Prop :=
  p.snd_una < U32 ∧ p.snd_nxt < U32 ∧ p.snd_wnd < U16

end Microps


namespace Microps

/-- Data in flight: snd.nxt - snd.una in uint32_t arithmetic. -/
def tcp_inflight (p : TcpPcbVars) : Nat := sub32 p.snd_nxt p.snd_una

lemma tcp_send_iter_inv (q r : TcpPcbVars) (mss remaining slen : Nat)
    (hwf : TcpSndWF q) (hinv : tcp_inflight q ≤ q.snd_wnd)
    (h : tcp_send_iter q mss remaining = some (slen, r)) :
    TcpSndWF r ∧ tcp_inflight r ≤ r.snd_wnd ∧ slen ≤ q.snd_wnd - tcp_inflight q := by
  obtain ⟨h1, h2, h3⟩ := hwf
  unfold tcp_send_iter at h
  by_cases hc : tcp_send_cap q = 0
  · simp [hc] at h
  · simp only [hc, if_false, Option.some.injEq, Prod.mk.injEq] at h
    obtain ⟨hs, hr⟩ := h
    have hm : slen ≤ tcp_send_cap q := by
      rw [← hs]
      exact min_le_right _ _
    subst hr
    refine ⟨⟨h1, ?_, h3⟩, ?_, ?_⟩
    · exact Nat.mod_lt _ (by norm_num [U32])
    · simp only [tcp_inflight, tcp_send_cap, sub32, U32, U16] at *
      omega
    · simp only [tcp_inflight, tcp_send_cap, sub32, U32, U16] at *
      omega

lemma tcp_established_ack_inv (q : TcpPcbVars) (seg : TcpSegmentInfo)
    (hwf : TcpSndWF q) (hinv : tcp_inflight q ≤ q.snd_wnd)
    (ha : seg.ack < U32) (hw : seg.wnd < U16)
    (hns : q.snd_una < seg.ack → seg.ack ≤ q.snd_nxt →
      (q.snd_wl1 < seg.seq ∨ (q.snd_wl1 = seg.seq ∧ q.snd_wl2 ≤ seg.ack)) →
      sub32 q.snd_nxt seg.ack ≤ seg.wnd) :
    TcpSndWF (tcp_established_ack q seg).1 ∧
      tcp_inflight (tcp_established_ack q seg).1 ≤ (tcp_established_ack q seg).1.snd_wnd := by
  obtain ⟨h1, h2, h3⟩ := hwf
  by_cases hg : q.snd_una < seg.ack ∧ seg.ack ≤ q.snd_nxt
  · by_cases hwl : q.snd_wl1 < seg.seq ∨ (q.snd_wl1 = seg.seq ∧ q.snd_wl2 ≤ seg.ack)
    · simp only [tcp_established_ack, hg, and_self, if_true, hwl, if_pos]
      refine ⟨⟨ha, h2, hw⟩, ?_⟩
      exact hns hg.1 hg.2 hwl
    · simp only [tcp_established_ack, hg, and_self, if_true, hwl, if_false]
      refine ⟨⟨ha, h2, h3⟩, ?_⟩
      simp only [tcp_inflight, sub32, U32] at *
      omega
  · have hgf : (q.snd_una < seg.ack ∧ seg.ack ≤ q.snd_nxt) = False := by
      simp [hg]
    by_cases hlt : seg.ack < q.snd_una
    · simp only [tcp_established_ack, hgf, if_false, hlt, if_true]
      exact ⟨⟨h1, h2, h3⟩, hinv⟩
    · by_cases hgt : q.snd_nxt < seg.ack
      · simp only [tcp_established_ack, hgf, if_false, hlt, hgt, if_true]
        exact ⟨⟨h1, h2, h3⟩, hinv⟩
      · simp only [tcp_established_ack, hgf, if_false, hlt, hgt]
        exact ⟨⟨h1, h2, h3⟩, hinv⟩

lemma tcp_sendns_wf_inv (p q : TcpPcbVars) (h : TcpSendReachNS p q)
    (hwf : TcpSndWF p) (hinv : tcp_inflight p ≤ p.snd_wnd) :
    TcpSndWF q ∧ tcp_inflight q ≤ q.snd_wnd := by
  induction h with
  | refl => exact ⟨hwf, hinv⟩
  | send q r mss remaining slen hr hiter ih =>
      obtain ⟨ihwf, ihinv⟩ := ih
      obtain ⟨a, b, _⟩ := tcp_send_iter_inv q r mss remaining slen ihwf ihinv hiter
      exact ⟨a, b⟩
  | ack q seg hr ha hw hns ih =>
      obtain ⟨ihwf, ihinv⟩ := ih
      exact tcp_established_ack_inv q seg ihwf ihinv ha hw hns

end Microps

namespace Microps

/-- Claim C6: for every received TCP segment with seg.len = 0 arriving at a
PCB in SYN_RECEIVED or ESTABLISHED state with rcv.wnd > 0, the segment is
judged acceptable if and only if rcv.nxt <= seg.seq < rcv.nxt + rcv.wnd
(the sum taken mod 2^32 as in the uint32_t addition); an unacceptable
segment without the RST flag triggers transmission of an ACK and is
otherwise dropped without state change. -/
theorem tcp_acceptability_zero_len (pcb : TcpPcbVars) (flags : Nat)
    (seg : TcpSegmentInfo) (h0 : seg.len = 0) (h1 : 0 < pcb.rcv_wnd) :
    (tcp_acceptable pcb.rcv_nxt pcb.rcv_wnd seg.seq seg.len = true ↔
      pcb.rcv_nxt ≤ seg.seq ∧ seg.seq < (pcb.rcv_nxt + pcb.rcv_wnd) % U32) ∧
    (tcp_acceptable pcb.rcv_nxt pcb.rcv_wnd seg.seq seg.len = false →
      tcp_check_seq pcb flags seg =
        (false,
         if TCP_FLG_ISSET flags TCP_FLG_RST then []
         else [tcp_output_ctl pcb TCP_FLG_ACK],
         pcb)) := by
  constructor
  · simp [tcp_acceptable, h0, Nat.pos_iff_ne_zero.mp h1]
  · intro hacc
    simp only [tcp_check_seq, hacc, Bool.false_eq_true, if_false]
    by_cases hrst : TCP_FLG_ISSET flags TCP_FLG_RST
    · simp [hrst]
    · simp [hrst]

/-- Witness for tcp_acceptability_zero_len at a concrete PCB and segment. -/
theorem tcp_acceptability_zero_len_w :
    let pcb : TcpPcbVars := ⟨5, 0, 0, 0, 0, 0, 1000, 500⟩
    let seg : TcpSegmentInfo := ⟨1499, 7, 0, 100, 0⟩
    (tcp_acceptable pcb.rcv_nxt pcb.rcv_wnd seg.seq seg.len = true ↔
      pcb.rcv_nxt ≤ seg.seq ∧ seg.seq < (pcb.rcv_nxt + pcb.rcv_wnd) % U32) ∧
    (tcp_acceptable pcb.rcv_nxt pcb.rcv_wnd seg.seq seg.len = false →
      tcp_check_seq pcb 16 seg =
        (false,
         if TCP_FLG_ISSET 16 TCP_FLG_RST then []
         else [tcp_output_ctl pcb TCP_FLG_ACK],
         pcb)) :=
  tcp_acceptability_zero_len ⟨5, 0, 0, 0, 0, 0, 1000, 500⟩ 16 ⟨1499, 7, 0, 100, 0⟩
    (by decide) (by decide)

/-- Claim C3 (as stated) is false on the code: in SYN_RECEIVED, an ACK
equal to snd.una lies outside the claimed half-open interval
(snd.una, snd.nxt], yet the code (src/tcp.c line 594 tests
snd.una <= seg.ack) transitions the PCB to ESTABLISHED, wakes the
waiters, and emits no RST. -/
theorem tcp_syn_received_ack_cex :
    (tcp_check_ack ⟨4, 1000, 1001, 100, 0, 0, 50, 65535⟩ 16 ⟨0, 1000, 0, 500, 0⟩).pcb.state
        = TCP_PCB_STATE_ESTABLISHED ∧
    (tcp_check_ack ⟨4, 1000, 1001, 100, 0, 0, 50, 65535⟩ 16 ⟨0, 1000, 0, 500, 0⟩).woke = true ∧
    (tcp_check_ack ⟨4, 1000, 1001, 100, 0, 0, 50, 65535⟩ 16 ⟨0, 1000, 0, 500, 0⟩).out = [] ∧
    ¬(1000 < 1000) := by
  decide

/-- Claim C3 amended: for every segment carrying the ACK flag that reaches
the ACK-processing step for a PCB in SYN_RECEIVED state, the PCB
transitions to ESTABLISHED and wakes its waiters if and only if seg.ack
lies in the closed interval [snd.una, snd.nxt]; for any seg.ack outside
that interval the stack emits a RST segment with sequence number seg.ack
and the PCB is unchanged. -/
theorem tcp_syn_received_ack (pcb : TcpPcbVars) (flags : Nat) (seg : TcpSegmentInfo)
    (hst : pcb.state = TCP_PCB_STATE_SYN_RECEIVED)
    (hack : TCP_FLG_ISSET flags TCP_FLG_ACK = true) :
    ((tcp_check_ack pcb flags seg).pcb.state = TCP_PCB_STATE_ESTABLISHED ∧
        (tcp_check_ack pcb flags seg).woke = true ↔
      pcb.snd_una ≤ seg.ack ∧ seg.ack ≤ pcb.snd_nxt) ∧
    (¬(pcb.snd_una ≤ seg.ack ∧ seg.ack ≤ pcb.snd_nxt) →
      tcp_check_ack pcb flags seg =
        { pcb := pcb, out := [{ seq := seg.ack, ack := 0, flg := TCP_FLG_RST, wnd := 0 }],
          woke := false }) := by
  constructor
  · constructor
    · intro hres
      by_contra hout
      simp only [tcp_check_ack, hack, Bool.true_eq_false, if_false, hst, if_true,
        TCP_PCB_STATE_SYN_RECEIVED, hout, if_neg, not_false_iff] at hres
      exact absurd hres.1 (by simp [hst, TCP_PCB_STATE_SYN_RECEIVED, TCP_PCB_STATE_ESTABLISHED])
    · intro hin
      simp only [tcp_check_ack, hack, Bool.true_eq_false, if_false, hst, if_true,
        TCP_PCB_STATE_SYN_RECEIVED, hin, and_self, if_true]
      constructor
      · have hstate : ∀ (p : TcpPcbVars) (s : TcpSegmentInfo),
            (tcp_established_ack p s).1.state = p.state := by
          intro p s
          unfold tcp_established_ack
          by_cases hg : p.snd_una < s.ack ∧ s.ack ≤ p.snd_nxt
          · by_cases hwl : p.snd_wl1 < s.seq ∨ (p.snd_wl1 = s.seq ∧ p.snd_wl2 ≤ s.ack)
            · simp [hg, hwl]
            · simp [hg, hwl]
          · by_cases hlt : s.ack < p.snd_una
            · simp [hg, hlt]
            · by_cases hgt : p.snd_nxt < s.ack
              · simp [hg, hlt, hgt]
              · simp [hg, hlt, hgt]
        rw [hstate]
      · trivial
  · intro hout
    simp only [tcp_check_ack, hack, Bool.true_eq_false, if_false, hst, if_true,
      TCP_PCB_STATE_SYN_RECEIVED, hout, if_neg, not_false_iff]

/-- Witness for tcp_syn_received_ack at a concrete PCB and segment. -/
theorem tcp_syn_received_ack_w :
    let pcb : TcpPcbVars := ⟨4, 2000, 2001, 100, 0, 0, 50, 65535⟩
    let seg : TcpSegmentInfo := ⟨9, 2001, 0, 4000, 0⟩
    ((tcp_check_ack pcb 16 seg).pcb.state = TCP_PCB_STATE_ESTABLISHED ∧
        (tcp_check_ack pcb 16 seg).woke = true ↔
      pcb.snd_una ≤ seg.ack ∧ seg.ack ≤ pcb.snd_nxt) ∧
    (¬(pcb.snd_una ≤ seg.ack ∧ seg.ack ≤ pcb.snd_nxt) →
      tcp_check_ack pcb 16 seg =
        { pcb := pcb, out := [{ seq := seg.ack, ack := 0, flg := TCP_FLG_RST, wnd := 0 }],
          woke := false }) :=
  tcp_syn_received_ack ⟨4, 2000, 2001, 100, 0, 0, 50, 65535⟩ 16 ⟨9, 2001, 0, 4000, 0⟩
    (by decide) (by decide)

end Microps

namespace Microps

/-- Claim C2 (as stated) is false on the code: starting from an
ESTABLISHED PCB with snd.una = snd.nxt = 1000 and snd.wnd = 10, one
tcp_send loop iteration sends 10 bytes, then a concurrently processed ACK
(seg.ack = 1005, seg.wnd = 0) passes the ACK and window-update tests and
shrinks snd.wnd below the data in flight: at that observed instant
snd.nxt - snd.una = 5 exceeds snd.wnd = 0, and because cap is computed by
unsigned wrap-around the next loop iteration still transmits a 10-byte
data segment instead of sleeping. -/
theorem tcp_send_window_cex :
    TcpSendReach ⟨5, 1000, 1000, 10, 0, 0, 0, 65535⟩ ⟨5, 1005, 1010, 0, 5, 1005, 0, 65535⟩ ∧
    (⟨5, 1005, 1010, 0, 5, 1005, 0, 65535⟩ : TcpPcbVars).snd_wnd
        < tcp_inflight ⟨5, 1005, 1010, 0, 5, 1005, 0, 65535⟩ ∧
    tcp_send_iter ⟨5, 1005, 1010, 0, 5, 1005, 0, 65535⟩ 100 10
        = some (10, ⟨5, 1005, 1020, 0, 5, 1005, 0, 65535⟩) ∧
    (⟨5, 1005, 1010, 0, 5, 1005, 0, 65535⟩ : TcpPcbVars).snd_wnd < 10 := by
  refine ⟨?_, by decide, by decide, by decide⟩
  have h1 : tcp_send_iter ⟨5, 1000, 1000, 10, 0, 0, 0, 65535⟩ 100 20
      = some (10, ⟨5, 1000, 1010, 10, 0, 0, 0, 65535⟩) := by decide
  have h2 : (tcp_established_ack ⟨5, 1000, 1010, 10, 0, 0, 0, 65535⟩ ⟨5, 1005, 0, 0, 0⟩).1
      = ⟨5, 1005, 1010, 0, 5, 1005, 0, 65535⟩ := by decide
  have hs : TcpSendReach ⟨5, 1000, 1000, 10, 0, 0, 0, 65535⟩
      ⟨5, 1000, 1010, 10, 0, 0, 0, 65535⟩ :=
    TcpSendReach.send _ _ _ 100 20 10 (TcpSendReach.refl _) h1
  have ha := TcpSendReach.ack _ _ ⟨5, 1005, 0, 0, 0⟩ hs (by decide) (by decide)
  rw [h2] at ha
  exact ha

/-- Claim C2 amended: over any tcp_send call on an ESTABLISHED PCB,
snd.nxt - snd.una never exceeds snd.wnd at any observed instant, and every
transmitted data segment length is at most
cap = snd.wnd - (snd.nxt - snd.una), PROVIDED every concurrently processed
ACK segment that passes both the acceptance test snd.una < seg.ack <=
snd.nxt and the window-update test advertises a window of at least
snd.nxt - seg.ack (the peer never shrinks the window below the data still
in flight); without that proviso the subtraction underflows mod 2^32 and
the bound is violated. -/
theorem tcp_send_window_inv (p q : TcpPcbVars) (h : TcpSendReachNS p q)
    (hwf : TcpSndWF p) (hinv : tcp_inflight p ≤ p.snd_wnd) :
    tcp_inflight q ≤ q.snd_wnd ∧
    (∀ mss remaining slen r, tcp_send_iter q mss remaining = some (slen, r) →
      slen ≤ q.snd_wnd - tcp_inflight q) := by
  obtain ⟨hqwf, hqinv⟩ := tcp_sendns_wf_inv p q h hwf hinv
  refine ⟨hqinv, ?_⟩
  intro mss remaining slen r hiter
  exact (tcp_send_iter_inv q r mss remaining slen hqwf hqinv hiter).2.2

/-- Witness for tcp_send_window_inv along a concrete two-step trace. -/
theorem tcp_send_window_inv_w :
    tcp_inflight ⟨5, 1005, 1010, 8, 5, 1005, 0, 65535⟩
        ≤ (⟨5, 1005, 1010, 8, 5, 1005, 0, 65535⟩ : TcpPcbVars).snd_wnd ∧
    (∀ mss remaining slen r,
      tcp_send_iter ⟨5, 1005, 1010, 8, 5, 1005, 0, 65535⟩ mss remaining = some (slen, r) →
      slen ≤ (⟨5, 1005, 1010, 8, 5, 1005, 0, 65535⟩ : TcpPcbVars).snd_wnd
        - tcp_inflight ⟨5, 1005, 1010, 8, 5, 1005, 0, 65535⟩) := by
  have h1 : tcp_send_iter ⟨5, 1000, 1000, 10, 0, 0, 0, 65535⟩ 100 20
      = some (10, ⟨5, 1000, 1010, 10, 0, 0, 0, 65535⟩) := by decide
  have h2 : (tcp_established_ack ⟨5, 1000, 1010, 10, 0, 0, 0, 65535⟩ ⟨5, 1005, 0, 8, 0⟩).1
      = ⟨5, 1005, 1010, 8, 5, 1005, 0, 65535⟩ := by decide
  have hs : TcpSendReachNS ⟨5, 1000, 1000, 10, 0, 0, 0, 65535⟩
      ⟨5, 1000, 1010, 10, 0, 0, 0, 65535⟩ :=
    TcpSendReachNS.send _ _ _ 100 20 10 (TcpSendReachNS.refl _) h1
  have ha := TcpSendReachNS.ack _ _ ⟨5, 1005, 0, 8, 0⟩ hs (by decide) (by decide)
      (by intro u v w; decide)
  rw [h2] at ha
  exact tcp_send_window_inv _ _ ha ⟨by decide, by decide, by decide⟩ (by decide)

end Microps

namespace Microps

/-! ## ARP (src/arp.c)

The ARP cache is the fixed array of struct arp_cache entries; it is
modelled as a list of entries (the claims hold for any capacity, and the
concrete instances below use the 32-entry table).  A hardware address is a
list of byte values. -/

def ARP_CACHE_STATE_FREE : Nat := 0
def ARP_CACHE_STATE_INCOMPLETE : Nat := 1
def ARP_CACHE_STATE_RESOLVED : Nat := 2
def ARP_CACHE_STATE_STATIC : Nat := 3
def ARP_CACHE_TIMEOUT : Nat := 30
def ETHER_ADDR_LEN : Nat := 6

/-- Modelled from the spec: ether.h is not under src/.  ETHER_ADDR_LEN is
the plain integer constant 6 (spec section 6: 6-byte MAC addresses) and
ETHER_ADDR_STR_LEN the plain integer constant 18 (colon-hex sextet text
plus terminator), so on the 64-bit Linux targets the C expressions
sizeof(ETHER_ADDR_LEN) and sizeof(ETHER_ADDR_STR_LEN), which
arp_cache_update and arp_cache_insert pass to memcpy as the number of
bytes, both evaluate to sizeof(int) = 4, not 6. -/
def sizeof_ETHER_ADDR_LEN : Nat := 4

/-- See sizeof_ETHER_ADDR_LEN. -/
def sizeof_ETHER_ADDR_STR_LEN : Nat := 4

/-- Modelled from the spec: arp.h is not under src/.  The resolver result
constants follow the spec taxonomy (section 7: ERROR is the terminal
failure, INCOMPLETE the non-terminal retry outcome, FOUND the success) and
the error convention used across the codebase (-1 for errors). -/
def ARP_RESOLVE_ERROR : Int := -1

/-- See ARP_RESOLVE_ERROR. -/
def ARP_RESOLVE_INCOMPLETE : Int := 0

/-- See ARP_RESOLVE_ERROR. -/
def ARP_RESOLVE_FOUND : Int := 1

/-- struct timeval. -/
structure Timeval where
  sec : Nat
  usec : Nat
deriving Repr, DecidableEq

/-- timercmp(a, b, >). -/
def timercmp_gt (a b : Timeval) : Bool :=
  a.sec > b.sec || (a.sec == b.sec && a.usec > b.usec)

/-- The tv_sec field of timersub(now, t): seconds with borrow from the
microsecond field, signed as in C struct timeval. -/
def timersub_sec (now t : Timeval) : Int :=
  if t.usec ≤ now.usec then (now.sec : Int) - t.sec else (now.sec : Int) - t.sec - 1

/-- struct arp_cache. -/
structure ArpCacheEntry where
  state : Nat
  pa : Nat
  ha : List Nat
  timestamp : Timeval
deriving Repr, DecidableEq

/-- The all-zero FREE entry (initial array contents). -/
def arp_cache_entry_free : ArpCacheEntry :=
  { state := ARP_CACHE_STATE_FREE, pa := 0, ha := [0, 0, 0, 0, 0, 0], timestamp := ⟨0, 0⟩ }

/-- arp_cache_delete: state FREE, hardware address, protocol address and
timestamp all zeroed. -/
def arp_cache_delete (_c : ArpCacheEntry) : ArpCacheEntry := arp_cache_entry_free

/-- arp_cache_select: index of the first non-FREE entry whose protocol
address matches. -/
def arp_cache_select_idx (caches : List ArpCacheEntry) (pa : Nat) : Option Nat :=
  caches.findIdx? (fun e => e.state != ARP_CACHE_STATE_FREE && e.pa == pa)

/-- arp_cache_update: refresh the matching entry.  The C code copies the
hardware address with memcpy(&cache->ha, ha, sizeof(ETHER_ADDR_LEN)), so
only the first 4 bytes of the sender hardware address are stored; the last
2 bytes of the cached address are left as they were. -/
def arp_cache_update (now : Timeval) (pa : Nat) (ha : List Nat)
    (caches : List ArpCacheEntry) : Option (List ArpCacheEntry) :=
  match arp_cache_select_idx caches pa with
  | none => none
  | some i =>
    let c := caches.getD i arp_cache_entry_free
    some (caches.set i
      { c with ha := ha.take sizeof_ETHER_ADDR_LEN ++ c.ha.drop sizeof_ETHER_ADDR_LEN,
               state := ARP_CACHE_STATE_RESOLVED, timestamp := now })

/-- The oldest-entry scan of arp_cache_alloc: first index holding the
minimal timestamp under timercmp(_, _, >). -/
def arp_cache_oldest : List ArpCacheEntry → Option (Nat × Timeval)
| [] => none
| e :: r =>
  match arp_cache_oldest r with
  | none => some (0, e.timestamp)
  | some (j, t) => if timercmp_gt e.timestamp t then some (j + 1, t) else some (0, e.timestamp)

/-- arp_cache_alloc: the first FREE entry, else the oldest entry after
deleting its contents.  Returns the chosen index and the table. -/
def arp_cache_alloc (caches : List ArpCacheEntry) : Option (Nat × List ArpCacheEntry) :=
  match caches.findIdx? (fun e => e.state == ARP_CACHE_STATE_FREE) with
  | some i => some (i, caches)
  | none =>
    match arp_cache_oldest caches with
    | none => none
    | some (i, _) =>
      some (i, caches.set i (arp_cache_delete (caches.getD i arp_cache_entry_free)))

/-- arp_cache_insert: allocate an entry and fill it as RESOLVED.  The C
code copies the hardware address with
memcpy(cache->ha, ha, sizeof(ETHER_ADDR_STR_LEN)), again only 4 bytes. -/
def arp_cache_insert (now : Timeval) (pa : Nat) (ha : List Nat)
    (caches : List ArpCacheEntry) : Option (List ArpCacheEntry) :=
  match arp_cache_alloc caches with
  | none => none
  | some (i, cs) =>
    let c := cs.getD i arp_cache_entry_free
    some (cs.set i
      { state := ARP_CACHE_STATE_RESOLVED, pa := pa,
        ha := ha.take sizeof_ETHER_ADDR_STR_LEN ++ c.ha.drop sizeof_ETHER_ADDR_STR_LEN,
        timestamp := now })

/-- The cache effect of arp_input (src/arp.c lines 390-410): update the
entry for the sender protocol address; if no update happened (merge = 0)
and the target protocol address is the receiving interface unicast
address, insert a fresh entry for the sender. -/
def arp_input_cache (now : Timeval) (spa : Nat) (sha : List Nat)
    (iface_unicast tpa : Nat) (caches : List ArpCacheEntry) : List ArpCacheEntry :=
  match arp_cache_update now spa sha caches with
  | some cs => cs
  | none =>
    if iface_unicast = tpa then (arp_cache_insert now spa sha caches).getD caches
    else caches

/-- arp_resolve: the full resolve path, taking the device type and the
interface family for the two guard checks.  Returns the result code, the
hardware address copied to the caller for FOUND, and the cache
afterwards. -/
def arp_resolve (dev_type family : Nat) (now : Timeval) (pa : Nat)
    (caches : List ArpCacheEntry) : Int × Option (List Nat) × List ArpCacheEntry :=
  if dev_type ≠ NET_DEVICE_TYPE_ETHERNET then (ARP_RESOLVE_ERROR, none, caches)
  else if family ≠ NET_IFACE_FAMILY_IP then (ARP_RESOLVE_ERROR, none, caches)
  else
    match arp_cache_select_idx caches pa with
    | none =>
      match arp_cache_alloc caches with
      | none => (ARP_RESOLVE_ERROR, none, caches)
      | some (i, cs) =>
        let c := cs.getD i arp_cache_entry_free
        (ARP_RESOLVE_INCOMPLETE, none,
          cs.set i { c with state := ARP_CACHE_STATE_INCOMPLETE, pa := pa, timestamp := now })
    | some i =>
      let c := caches.getD i arp_cache_entry_free
      if c.state = ARP_CACHE_STATE_INCOMPLETE then (ARP_RESOLVE_INCOMPLETE, none, caches)
      else (ARP_RESOLVE_FOUND, some c.ha, caches)

/-- arp_timer_handler: delete every non-FREE non-STATIC entry whose
timersub elapsed seconds exceed ARP_CACHE_TIMEOUT (strictly). -/
def arp_timer_handler (now : Timeval) (caches : List ArpCacheEntry) : List ArpCacheEntry :=
  caches.map fun e =>
    if e.state ≠ ARP_CACHE_STATE_FREE ∧ e.state ≠ ARP_CACHE_STATE_STATIC ∧
        (ARP_CACHE_TIMEOUT : Int) < timersub_sec now e.timestamp then
      arp_cache_delete e
    else e

/-- Claim C1 is right and the code is wrong: after an ARP message with
sender hardware address aa:bb:cc:dd:ee:ff (bytes 170..255) and sender
protocol address 1000 is merged into an empty cache through the
arp_input path (target address 2000 equals the interface unicast, so
arp_cache_insert runs), arp_resolve on the Ethernet/IP interface returns
FOUND but hands the caller aa:bb:cc:dd:00:00: arp_cache_insert and
arp_cache_update pass sizeof(ETHER_ADDR_STR_LEN) resp.
sizeof(ETHER_ADDR_LEN) - the size of an int, 4 - to memcpy instead of the
6-byte address length, so the last two bytes of the sender hardware
address are never stored. -/
theorem arp_resolve_truncated_ha :
    (arp_resolve 2 1 ⟨101, 0⟩ 1000
      (arp_input_cache ⟨100, 0⟩ 1000 [170, 187, 204, 221, 238, 255] 2000 2000
        (List.replicate 32 arp_cache_entry_free))).1 = ARP_RESOLVE_FOUND ∧
    (arp_resolve 2 1 ⟨101, 0⟩ 1000
      (arp_input_cache ⟨100, 0⟩ 1000 [170, 187, 204, 221, 238, 255] 2000 2000
        (List.replicate 32 arp_cache_entry_free))).2.1 = some [170, 187, 204, 221, 0, 0] ∧
    [170, 187, 204, 221, 0, 0] ≠ [170, 187, 204, 221, 238, 255] := by
  decide

end Microps

namespace Microps

/-- Claim C8 (as stated) is false on the code: a RESOLVED entry last
refreshed at time 0.5 s has, at the sweep at time 31.0 s, been untouched
for 30.5 s (at least 30 seconds), yet timersub yields tv_sec = 30 and the
handler tests diff.tv_sec > 30, so the entry survives the sweep. -/
theorem arp_timer_thirty_seconds_cex :
    arp_timer_handler ⟨31, 0⟩ [⟨2, 1000, [1, 2, 3, 4, 5, 6], ⟨0, 500000⟩⟩]
      = [⟨2, 1000, [1, 2, 3, 4, 5, 6], ⟨0, 500000⟩⟩] ∧
    (31 * 1000000 + 0) - (0 * 1000000 + 500000) ≥ 30 * 1000000 ∧
    (⟨2, 1000, [1, 2, 3, 4, 5, 6], ⟨0, 500000⟩⟩ : ArpCacheEntry).state
      ≠ ARP_CACHE_STATE_FREE := by
  refine ⟨?_, by norm_num, by decide⟩
  decide

/-- Helper: getD through List.map at an in-range index. -/
lemma getD_map_of_lt {A B : Type} (l : List A) (f : A → B) (i : Nat) (d : B) (dd : A)
    (h : i < l.length) : (l.map f).getD i d = f (l.getD i dd) := by
  have h2 : i < (l.map f).length := by simpa using h
  rw [List.getD_eq_getElem?_getD, List.getElem?_eq_getElem h2, List.getElem_map]
  rw [List.getD_eq_getElem?_getD, List.getElem?_eq_getElem h]
  simp

/-- Claim C8 amended: the ARP timer sweep deletes a non-STATIC, non-FREE
cache entry exactly when the tv_sec field of the timersub difference
between the sweep time and the entry timestamp exceeds 30, i.e. when at
least 31 whole seconds have elapsed; the deleted entry becomes the
all-zero FREE entry, and an entry whose difference is at most 30 seconds
is left unchanged. -/
theorem arp_timer_expiry (now : Timeval) (caches : List ArpCacheEntry) (i : Nat)
    (h : i < caches.length)
    (hstate : (caches.getD i arp_cache_entry_free).state ≠ ARP_CACHE_STATE_FREE)
    (hstatic : (caches.getD i arp_cache_entry_free).state ≠ ARP_CACHE_STATE_STATIC) :
    ((ARP_CACHE_TIMEOUT : Int) < timersub_sec now (caches.getD i arp_cache_entry_free).timestamp →
      (arp_timer_handler now caches).getD i arp_cache_entry_free = arp_cache_entry_free) ∧
    (timersub_sec now (caches.getD i arp_cache_entry_free).timestamp ≤ (ARP_CACHE_TIMEOUT : Int) →
      (arp_timer_handler now caches).getD i arp_cache_entry_free
        = caches.getD i arp_cache_entry_free) := by
  have hmap : (arp_timer_handler now caches).getD i arp_cache_entry_free
      = (if (caches.getD i arp_cache_entry_free).state ≠ ARP_CACHE_STATE_FREE ∧
            (caches.getD i arp_cache_entry_free).state ≠ ARP_CACHE_STATE_STATIC ∧
            (ARP_CACHE_TIMEOUT : Int)
              < timersub_sec now (caches.getD i arp_cache_entry_free).timestamp then
          arp_cache_delete (caches.getD i arp_cache_entry_free)
        else caches.getD i arp_cache_entry_free) := by
    rw [arp_timer_handler]
    exact getD_map_of_lt caches _ i arp_cache_entry_free arp_cache_entry_free h
  constructor
  · intro hd
    rw [hmap, if_pos ⟨hstate, hstatic, hd⟩]
    rfl
  · intro hd
    have hcond : ¬((caches.getD i arp_cache_entry_free).state ≠ ARP_CACHE_STATE_FREE ∧
        (caches.getD i arp_cache_entry_free).state ≠ ARP_CACHE_STATE_STATIC ∧
        (ARP_CACHE_TIMEOUT : Int)
          < timersub_sec now (caches.getD i arp_cache_entry_free).timestamp) := by
      intro hc
      exact absurd hc.2.2 (by omega)
    rw [hmap, if_neg hcond]

/-- Witness for arp_timer_expiry: a RESOLVED entry stamped at time 0 is
handled by the sweep at time 31.000001 s, where it is deleted. -/
theorem arp_timer_expiry_w :
    (((ARP_CACHE_TIMEOUT : Int)
        < timersub_sec ⟨31, 1⟩ (([⟨2, 7, [9, 9, 9, 9, 9, 9], ⟨0, 0⟩⟩] :
            List ArpCacheEntry).getD 0 arp_cache_entry_free).timestamp →
      (arp_timer_handler ⟨31, 1⟩ [⟨2, 7, [9, 9, 9, 9, 9, 9], ⟨0, 0⟩⟩]).getD 0 arp_cache_entry_free
        = arp_cache_entry_free) ∧
    (timersub_sec ⟨31, 1⟩ (([⟨2, 7, [9, 9, 9, 9, 9, 9], ⟨0, 0⟩⟩] :
            List ArpCacheEntry).getD 0 arp_cache_entry_free).timestamp ≤ (ARP_CACHE_TIMEOUT : Int) →
      (arp_timer_handler ⟨31, 1⟩ [⟨2, 7, [9, 9, 9, 9, 9, 9], ⟨0, 0⟩⟩]).getD 0 arp_cache_entry_free
        = ([⟨2, 7, [9, 9, 9, 9, 9, 9], ⟨0, 0⟩⟩] :
            List ArpCacheEntry).getD 0 arp_cache_entry_free)) ∧
    (arp_timer_handler ⟨31, 1⟩ [⟨2, 7, [9, 9, 9, 9, 9, 9], ⟨0, 0⟩⟩]).getD 0 arp_cache_entry_free
        = arp_cache_entry_free :=
  ⟨arp_timer_expiry ⟨31, 1⟩ [⟨2, 7, [9, 9, 9, 9, 9, 9], ⟨0, 0⟩⟩] 0 (by decide)
      (by decide) (by decide),
   by decide⟩

end Microps

namespace Microps

/-! ## IP routing (src/unnamed/part_002)

Addresses (ip_addr_t) are kept as the stored uint32_t values, i.e. the
network-byte-order patterns as read by the little-endian targets; the
lookup compares netmask magnitudes after ntoh32, exactly as the source
does. -/

/-- The fields of struct ip_iface and of its device that the output path
reads. -/
structure IpIface where
  unicast : Nat
  netmask : Nat
  broadcast : Nat
  dev_type : Nat
  dev_flags : Nat
  dev_mtu : Nat
deriving Repr, DecidableEq

/-- struct ip_route. -/
structure IpRoute where
  network : Nat
  netmask : Nat
  nexthop : Nat
  iface : IpIface
deriving Repr, DecidableEq

/-- ip_route_add: push the new route at the head of the route list. -/
def ip_route_add (network netmask nexthop : Nat) (iface : IpIface)
    (routes : List IpRoute) : List IpRoute :=
  { network := network, netmask := netmask, nexthop := nexthop, iface := iface } :: routes

/-- Whether a route covers the destination: (dst & netmask) == network. -/
def ip_route_matches (dst : Nat) (r : IpRoute) : Prop :=
  Nat.land dst r.netmask = r.network

instance (dst : Nat) (r : IpRoute) : Decidable (ip_route_matches dst r) := by
  unfold ip_route_matches
  infer_instance

/-- The candidate-tracking walk of ip_route_lookup: the candidate is
replaced only when a matching route has a strictly larger netmask under
ntoh32. -/
def ip_route_lookup_aux (dst : Nat) (cand : Option IpRoute) :
    List IpRoute → Option IpRoute
| [] => cand
| r :: rest =>
  if Nat.land dst r.netmask = r.network then
    match cand with
    | none => ip_route_lookup_aux dst (some r) rest
    | some c =>
      if ntoh32 c.netmask < ntoh32 r.netmask then ip_route_lookup_aux dst (some r) rest
      else ip_route_lookup_aux dst cand rest
  else ip_route_lookup_aux dst cand rest

/-- ip_route_lookup. -/
def ip_route_lookup (routes : List IpRoute) (dst : Nat) : Option IpRoute :=
  ip_route_lookup_aux dst none routes

/-- Number of bits set in the low 32 bits: the measure the claim uses for
the longest-prefix rule. -/
def bitcount32 (v : Nat) : Nat := (List.range 32).countP (fun i => v.testBit i)

lemma ip_route_lookup_aux_max (dst : Nat) :
    ∀ (routes : List IpRoute) (cand : Option IpRoute) (r : IpRoute),
      ip_route_lookup_aux dst cand routes = some r →
      (∀ c, cand = some c → ntoh32 c.netmask ≤ ntoh32 r.netmask) ∧
      (∀ s ∈ routes, ip_route_matches dst s → ntoh32 s.netmask ≤ ntoh32 r.netmask) := by
  intro routes
  induction routes with
  | nil =>
      intro cand r h
      simp only [ip_route_lookup_aux] at h
      refine ⟨?_, by simp⟩
      intro c hc
      rw [hc] at h
      cases h
      exact le_refl _
  | cons r0 rest ih =>
      intro cand r h
      simp only [ip_route_lookup_aux] at h
      by_cases hm : Nat.land dst r0.netmask = r0.network
      · rw [if_pos hm] at h
        cases cand with
        | none =>
            obtain ⟨hc, hall⟩ := ih (some r0) r h
            refine ⟨by simp, ?_⟩
            intro s hs hms
            rcases List.mem_cons.mp hs with hs0 | hsr
            · rw [hs0]
              exact hc r0 rfl
            · exact hall s hsr hms
        | some c0 =>
            dsimp only at h
            by_cases hlt : ntoh32 c0.netmask < ntoh32 r0.netmask
            · rw [if_pos hlt] at h
              obtain ⟨hc, hall⟩ := ih (some r0) r h
              have hr0 := hc r0 rfl
              refine ⟨?_, ?_⟩
              · intro c hcc
                cases hcc
                exact le_of_lt (lt_of_lt_of_le hlt hr0)
              · intro s hs hms
                rcases List.mem_cons.mp hs with hs0 | hsr
                · rw [hs0]
                  exact hr0
                · exact hall s hsr hms
            · rw [if_neg hlt] at h
              obtain ⟨hc, hall⟩ := ih (some c0) r h
              have hc0 := hc c0 rfl
              refine ⟨?_, ?_⟩
              · intro c hcc
                cases hcc
                exact hc0
              · intro s hs hms
                rcases List.mem_cons.mp hs with hs0 | hsr
                · rw [hs0]
                  exact le_trans (le_of_not_lt hlt) hc0
                · exact hall s hsr hms
      · rw [if_neg hm] at h
        obtain ⟨hc, hall⟩ := ih cand r h
        refine ⟨hc, ?_⟩
        intro s hs hms
        rcases List.mem_cons.mp hs with hs0 | hsr
        · rw [hs0] at hms
          exact absurd hms hm
        · exact hall s hsr hms

lemma ip_route_lookup_aux_first (dst : Nat) :
    ∀ (routes : List IpRoute) (cand : Option IpRoute) (r : IpRoute),
      ip_route_lookup_aux dst cand routes = some r →
      (cand = some r) ∨
      (∃ l1 l2, routes = l1 ++ r :: l2 ∧ ip_route_matches dst r ∧
        (∀ c, cand = some c → ntoh32 c.netmask < ntoh32 r.netmask) ∧
        (∀ s ∈ l1, ip_route_matches dst s → ntoh32 s.netmask < ntoh32 r.netmask)) := by
  intro routes
  induction routes with
  | nil =>
      intro cand r h
      simp only [ip_route_lookup_aux] at h
      exact Or.inl h
  | cons r0 rest ih =>
      intro cand r h
      simp only [ip_route_lookup_aux] at h
      by_cases hm : Nat.land dst r0.netmask = r0.network
      · rw [if_pos hm] at h
        cases cand with
        | none =>
            rcases ih (some r0) r h with hc | ⟨l1, l2, heq, hmr, hcand, hl1⟩
            · cases hc
              exact Or.inr ⟨[], rest, rfl, hm, by simp, by simp⟩
            · refine Or.inr ⟨r0 :: l1, l2, by rw [heq]; rfl, hmr, by simp, ?_⟩
              intro s hs hms
              rcases List.mem_cons.mp hs with hs0 | hsr
              · rw [hs0]
                exact hcand r0 rfl
              · exact hl1 s hsr hms
        | some c0 =>
            dsimp only at h
            by_cases hlt : ntoh32 c0.netmask < ntoh32 r0.netmask
            · rw [if_pos hlt] at h
              rcases ih (some r0) r h with hc | ⟨l1, l2, heq, hmr, hcand, hl1⟩
              · cases hc
                refine Or.inr ⟨[], rest, rfl, hm, ?_, by simp⟩
                intro c hcc
                cases hcc
                exact hlt
              · refine Or.inr ⟨r0 :: l1, l2, by rw [heq]; rfl, hmr, ?_, ?_⟩
                · intro c hcc
                  cases hcc
                  exact lt_trans hlt (hcand r0 rfl)
                · intro s hs hms
                  rcases List.mem_cons.mp hs with hs0 | hsr
                  · rw [hs0]
                    exact hcand r0 rfl
                  · exact hl1 s hsr hms
            · rw [if_neg hlt] at h
              rcases ih (some c0) r h with hc | ⟨l1, l2, heq, hmr, hcand, hl1⟩
              · exact Or.inl hc
              · refine Or.inr ⟨r0 :: l1, l2, by rw [heq]; rfl, hmr, hcand, ?_⟩
                intro s hs hms
                rcases List.mem_cons.mp hs with hs0 | hsr
                · rw [hs0]
                  exact lt_of_le_of_lt (le_of_not_lt hlt) (hcand c0 rfl)
                · exact hl1 s hsr hms
      · rw [if_neg hm] at h
        rcases ih cand r h with hc | ⟨l1, l2, heq, hmr, hcand, hl1⟩
        · exact Or.inl hc
        · refine Or.inr ⟨r0 :: l1, l2, by rw [heq]; rfl, hmr, hcand, ?_⟩
          intro s hs hms
          rcases List.mem_cons.mp hs with hs0 | hsr
          · rw [hs0] at hms
            exact absurd hms hm
          · exact hl1 s hsr hms

end Microps

namespace Microps

/-- The S3 interface: 192.0.2.2/24 on an Ethernet device (addresses are
the stored little-endian patterns of the network-byte-order values). -/
def s3_iface : IpIface :=
  { unicast := 33685696, netmask := 16777215, broadcast := 4278321344,
    dev_type := 2, dev_flags := 256, dev_mtu := 1500 }

/-- The direct route 192.0.2.0/24 of scenario S3. -/
def s3_route24 : IpRoute := { network := 131264, netmask := 16777215, nexthop := 0, iface := s3_iface }

/-- The default route via 192.0.2.1 of scenario S3. -/
def s3_default : IpRoute := { network := 0, netmask := 0, nexthop := 16908480, iface := s3_iface }

/-- The S3 route table, built through ip_route_add: the /24 is added when
the interface registers, the default gateway afterwards. -/
def s3_routes : List IpRoute :=
  ip_route_add 0 0 16908480 s3_iface (ip_route_add 131264 16777215 0 s3_iface [])

/-- Claim C4 (as stated) is false on the code: the lookup compares netmask
magnitudes after ntoh32, not set-bit counts.  With the (non-prefix) masks
255.0.0.0 (8 bits set) and 0.255.255.255 (24 bits set) both covering
destination 0, the code returns the 8-bit route because its byte-swapped
value 0xFF000000 is larger, although the other matching route has more
bits set in its netmask. -/
theorem ip_route_lookup_most_bits_cex :
    ip_route_lookup
        [{ network := 0, netmask := 255, nexthop := 0, iface := s3_iface },
         { network := 0, netmask := 4294967040, nexthop := 0, iface := s3_iface }] 0
      = some { network := 0, netmask := 255, nexthop := 0, iface := s3_iface } ∧
    ip_route_matches 0
      ({ network := 0, netmask := 4294967040, nexthop := 0, iface := s3_iface } : IpRoute) ∧
    bitcount32 255 < bitcount32 4294967040 := by
  decide

/-- Claim C4 amended: ip_route_lookup is idempotent (it never mutates the
table; looking the same destination up twice yields the same route) and
returns, among all routes whose network contains the destination, the one
whose netmask is numerically largest after ntoh32 - which is the netmask
with the most bits set whenever all netmasks are contiguous prefix masks;
ties break in list order, i.e. the most recently added route wins, because
ip_route_add prepends and the walk replaces the candidate only on a
strictly larger netmask.  With routes {0.0.0.0/0 via a gateway,
192.0.2.0/24 direct}, lookup(192.0.2.42) returns the /24 route and
lookup(8.8.8.8) the default route (shown in the witness). -/
theorem ip_route_lookup_spec (routes : List IpRoute) (dst : Nat) (r : IpRoute)
    (h : ip_route_lookup routes dst = some r) :
    ip_route_lookup routes dst = ip_route_lookup routes dst ∧
    ip_route_matches dst r ∧
    (∀ s ∈ routes, ip_route_matches dst s → ntoh32 s.netmask ≤ ntoh32 r.netmask) ∧
    (∃ l1 l2, routes = l1 ++ r :: l2 ∧
      ∀ s ∈ l1, ip_route_matches dst s → ntoh32 s.netmask < ntoh32 r.netmask) := by
  refine ⟨rfl, ?_, ?_, ?_⟩
  · rcases ip_route_lookup_aux_first dst routes none r h with hc | ⟨_, _, _, hmr, _, _⟩
    · exact Option.noConfusion hc
    · exact hmr
  · exact (ip_route_lookup_aux_max dst routes none r h).2
  · rcases ip_route_lookup_aux_first dst routes none r h with hc | ⟨l1, l2, heq, _, _, hl1⟩
    · exact Option.noConfusion hc
    · exact ⟨l1, l2, heq, hl1⟩

/-- Witness for ip_route_lookup_spec: the S3 scenario, both lookups. -/
theorem ip_route_lookup_spec_w :
    ip_route_lookup s3_routes 704774336 = some s3_route24 ∧
    ip_route_lookup s3_routes 134744072 = some s3_default ∧
    (ip_route_lookup s3_routes 704774336 = ip_route_lookup s3_routes 704774336 ∧
     ip_route_matches 704774336 s3_route24 ∧
     (∀ s ∈ s3_routes, ip_route_matches 704774336 s →
        ntoh32 s.netmask ≤ ntoh32 s3_route24.netmask) ∧
     (∃ l1 l2, s3_routes = l1 ++ s3_route24 :: l2 ∧
        ∀ s ∈ l1, ip_route_matches 704774336 s →
          ntoh32 s.netmask < ntoh32 s3_route24.netmask)) ∧
    (ip_route_lookup s3_routes 134744072 = ip_route_lookup s3_routes 134744072 ∧
     ip_route_matches 134744072 s3_default ∧
     (∀ s ∈ s3_routes, ip_route_matches 134744072 s →
        ntoh32 s.netmask ≤ ntoh32 s3_default.netmask) ∧
     (∃ l1 l2, s3_routes = l1 ++ s3_default :: l2 ∧
        ∀ s ∈ l1, ip_route_matches 134744072 s →
          ntoh32 s.netmask < ntoh32 s3_default.netmask)) :=
  ⟨by decide, by decide,
   ip_route_lookup_spec s3_routes 704774336 s3_route24 (by decide),
   ip_route_lookup_spec s3_routes 134744072 s3_default (by decide)⟩

end Microps

namespace Microps

/-! ## IP output path (src/unnamed/part_002, ip_output / ip_output_core /
ip_output_device)

These functions model the status propagation of the output path; the
datagram bytes themselves are handled by the transport embeddings.  The
driver transmit outcome (net_device_output, an external collaborator per
spec section 6) is the dev_ret parameter. -/

/-- ip_output_device: broadcast nexthops use the device broadcast address;
otherwise, on a NEED_ARP device, arp_resolve runs and any result other
than FOUND is returned as the result of ip_output_device.  The interface
family handed to arp_resolve is NET_IFACE_FAMILY_IP, the family every
registered struct ip_iface carries. -/
def ip_output_device (iface : IpIface) (dst : Nat) (now : Timeval)
    (caches : List ArpCacheEntry) (dev_ret : Int) : Int :=
  if Nat.land iface.dev_flags NET_DEVICE_FLAG_NEED_ARP ≠ 0 then
    if dst = iface.broadcast ∨ dst = IP_ADDR_BROADCAST then dev_ret
    else
      let r := (arp_resolve iface.dev_type NET_IFACE_FAMILY_IP now dst caches).1
      if r ≠ ARP_RESOLVE_FOUND then r else dev_ret
  else dev_ret

/-- ip_output_core: builds the datagram (20-byte header plus payload) and
returns the result of ip_output_device for the nexthop. -/
def ip_output_core (iface : IpIface) (_len : Nat) (nexthop : Nat) (now : Timeval)
    (caches : List ArpCacheEntry) (dev_ret : Int) : Int :=
  ip_output_device iface nexthop now caches dev_ret

/-- ip_output: source/route/MTU checks, then ip_output_core; only a -1
result of ip_output_core is treated as failure, any other result makes
ip_output report the payload length. -/
def ip_output (_protocol : Nat) (len : Nat) (src dst : Nat) (routes : List IpRoute)
    (now : Timeval) (caches : List ArpCacheEntry) (dev_ret : Int) : Int :=
  if src = IP_ADDR_ANY ∧ dst = IP_ADDR_BROADCAST then -1
  else
    match ip_route_lookup routes dst with
    | none => -1
    | some route =>
      if src ≠ IP_ADDR_ANY ∧ src ≠ route.iface.unicast then -1
      else
        let nexthop := if route.nexthop ≠ IP_ADDR_ANY then route.nexthop else dst
        if route.iface.dev_mtu < IP_HDR_SIZE_MIN + len then -1
        else if ip_output_core route.iface len nexthop now caches dev_ret = -1 then -1
        else (len : Int)

/-- The C5 world: a /24 interface on an Ethernet NEED_ARP device with one
direct route. -/
def c5_iface : IpIface :=
  { unicast := 33685696, netmask := 16777215, broadcast := 4278321344,
    dev_type := 2, dev_flags := 289, dev_mtu := 1500 }

/-- The C5 direct route for the attached /24. -/
def c5_route : IpRoute :=
  { network := 131264, netmask := 16777215, nexthop := 0, iface := c5_iface }

/-- The C5 route table: the directly attached /24. -/
def c5_routes : List IpRoute := [c5_route]

/-- Claim C5 (as stated) is false on the code: sending 100 bytes to the
on-link host 192.0.2.42 with an empty ARP cache makes arp_resolve return
INCOMPLETE (0), yet ip_output returns the payload length 100, reporting
success although the datagram was never handed to the device: ip_output
only checks the result of ip_output_core against -1, so the INCOMPLETE
value 0 is swallowed. -/
theorem ip_output_incomplete_cex :
    (arp_resolve 2 1 ⟨50, 0⟩ 704774336 (List.replicate 32 arp_cache_entry_free)).1
      = ARP_RESOLVE_INCOMPLETE ∧
    ip_output 17 100 0 704774336 c5_routes ⟨50, 0⟩
        (List.replicate 32 arp_cache_entry_free) 0 = 100 ∧
    (100 : Int) ≠ -1 := by
  decide

/-- Claim C5 amended: on a NEED_ARP device with a non-broadcast nexthop,
an ERROR (-1) from arp_resolve is propagated as the -1 result of
ip_output, but an INCOMPLETE (0) outcome is not: ip_output_core returns 0,
which passes the test against -1 in ip_output, and ip_output reports the
payload length len as if the datagram had been delivered. -/
theorem ip_output_arp_propagation (protocol len src dst nexthop : Nat)
    (routes : List IpRoute) (route : IpRoute) (now : Timeval)
    (caches : List ArpCacheEntry) (dev_ret : Int)
    (hroute : ip_route_lookup routes dst = some route)
    (hnb : ¬(src = IP_ADDR_ANY ∧ dst = IP_ADDR_BROADCAST))
    (hsrc : src = IP_ADDR_ANY ∨ src = route.iface.unicast)
    (hmtu : IP_HDR_SIZE_MIN + len ≤ route.iface.dev_mtu)
    (harp : Nat.land route.iface.dev_flags NET_DEVICE_FLAG_NEED_ARP ≠ 0)
    (hnh : nexthop = if route.nexthop ≠ IP_ADDR_ANY then route.nexthop else dst)
    (hnbc : ¬(nexthop = route.iface.broadcast ∨ nexthop = IP_ADDR_BROADCAST)) :
    ((arp_resolve route.iface.dev_type NET_IFACE_FAMILY_IP now nexthop caches).1
        = ARP_RESOLVE_ERROR →
      ip_output protocol len src dst routes now caches dev_ret = -1) ∧
    ((arp_resolve route.iface.dev_type NET_IFACE_FAMILY_IP now nexthop caches).1
        = ARP_RESOLVE_INCOMPLETE →
      ip_output protocol len src dst routes now caches dev_ret = (len : Int)) := by
  have hsrc2 : ¬(src ≠ IP_ADDR_ANY ∧ src ≠ route.iface.unicast) := by
    rcases hsrc with h | h
    · intro hc
      exact hc.1 h
    · intro hc
      exact hc.2 h
  have hmtu2 : ¬(route.iface.dev_mtu < IP_HDR_SIZE_MIN + len) := by omega
  constructor
  · intro herr
    unfold ip_output ip_output_core ip_output_device
    rw [if_neg hnb, hroute]
    dsimp only
    rw [if_neg hsrc2, ← hnh, if_neg hmtu2, if_pos harp, if_neg hnbc, herr]
    norm_num [ARP_RESOLVE_ERROR, ARP_RESOLVE_FOUND]
  · intro hinc
    unfold ip_output ip_output_core ip_output_device
    rw [if_neg hnb, hroute]
    dsimp only
    rw [if_neg hsrc2, ← hnh, if_neg hmtu2, if_pos harp, if_neg hnbc, hinc]
    norm_num [ARP_RESOLVE_INCOMPLETE, ARP_RESOLVE_FOUND]

/-- Witness for ip_output_arp_propagation in the C5 world (where the
resolver outcome is INCOMPLETE). -/
theorem ip_output_arp_propagation_w :
    ((arp_resolve c5_route.iface.dev_type NET_IFACE_FAMILY_IP ⟨50, 0⟩
        704774336 (List.replicate 32 arp_cache_entry_free)).1 = ARP_RESOLVE_ERROR →
      ip_output 17 100 0 704774336 c5_routes ⟨50, 0⟩
        (List.replicate 32 arp_cache_entry_free) 0 = -1) ∧
    ((arp_resolve c5_route.iface.dev_type NET_IFACE_FAMILY_IP ⟨50, 0⟩
        704774336 (List.replicate 32 arp_cache_entry_free)).1 = ARP_RESOLVE_INCOMPLETE →
      ip_output 17 100 0 704774336 c5_routes ⟨50, 0⟩
        (List.replicate 32 arp_cache_entry_free) 0 = (100 : Int)) :=
  ip_output_arp_propagation 17 100 0 704774336 704774336 c5_routes c5_route
    ⟨50, 0⟩ (List.replicate 32 arp_cache_entry_free) 0
    (by decide) (by decide) (by decide) (by decide) (by decide) (by decide) (by decide)

end Microps

namespace Microps

/-! ## Scheduler contexts (src/platform/linux/sched.c)

A struct sched_ctx holds the condition variable, the interrupted flag and
the waiter count wc.  The operations all run under the caller-held mutex,
so their effects are modelled as atomic steps on the (interrupted, wc)
state; sched_sleep is split at its pthread_cond_wait suspension point into
an entry step and a wakeup step. -/

/-- Linux errno value EINTR. -/
def EINTR : Nat := 4

/-- The mutex-protected fields of struct sched_ctx. -/
structure SchedCtx where
  interrupted : Bool
  wc : Nat
deriving Repr, DecidableEq

/-- The part of sched_sleep before pthread_cond_wait: with the interrupted
flag set it returns -1 with errno EINTR at once (no waiter-count change,
no wait); otherwise it increments wc and blocks (none). -/
def sched_sleep_enter (ctx : SchedCtx) : SchedCtx × Option (Int × Nat) :=
  if ctx.interrupted then (ctx, some (-1, EINTR))
  else ({ ctx with wc := ctx.wc + 1 }, none)

/-- The part of sched_sleep after pthread_cond_wait returns: decrement wc;
if the interrupted flag is set, clear it when this waiter was the last one
(wc reached zero) and return -1 with errno EINTR; otherwise return the
wait result 0. -/
def sched_sleep_wake (ctx : SchedCtx) : SchedCtx × Option (Int × Nat) :=
  let c1 : SchedCtx := { ctx with wc := ctx.wc - 1 }
  if c1.interrupted then
    (if c1.wc = 0 then { c1 with interrupted := false } else c1, some (-1, EINTR))
  else
    (c1, none)

/-- sched_wakeup: broadcast only, no state change. -/
def sched_wakeup (ctx : SchedCtx) : SchedCtx := ctx

/-- sched_interrupt: set the interrupted flag and broadcast. -/
def sched_interrupt (ctx : SchedCtx) : SchedCtx := { ctx with interrupted := true }

/-- One mutex-protected step of the scheduler operations on a context. -/
inductive SchedStep : SchedCtx → SchedCtx → Prop
| sleep_enter (c : SchedCtx) : SchedStep c (sched_sleep_enter c).1
| sleep_wake (c : SchedCtx) : SchedStep c (sched_sleep_wake c).1
| wakeup (c : SchedCtx) : SchedStep c (sched_wakeup c)
| interrupt (c : SchedCtx) : SchedStep c (sched_interrupt c)

/-- Claim C10: on a context whose interrupted flag is set, a sched_sleep
call that starts returns -1 with errno EINTR immediately, leaving the
state (in particular the waiter count) unchanged and never reaching the
condition wait; and the only scheduler step that clears the interrupted
flag is the sched_sleep wakeup path of a waiter that observes the waiter
count reach zero. -/
theorem sched_interrupted_sleep (c d : SchedCtx) (st : SchedStep c d)
    (hint : c.interrupted = true) :
    sched_sleep_enter c = (c, some (-1, EINTR)) ∧
    (d.interrupted = false → d = (sched_sleep_wake c).1 ∧ d.wc = 0) := by
  constructor
  · simp [sched_sleep_enter, hint]
  · intro hd
    cases st with
    | sleep_enter =>
        simp [sched_sleep_enter, hint] at hd
    | sleep_wake =>
        refine ⟨rfl, ?_⟩
        by_cases hwc : c.wc - 1 = 0
        · simp [sched_sleep_wake, hint, hwc]
        · simp [sched_sleep_wake, hint, hwc] at hd
    | wakeup =>
        simp [sched_wakeup, hint] at hd
    | interrupt =>
        simp [sched_interrupt] at hd

/-- Witness for sched_interrupted_sleep: an interrupted context with one
sleeping waiter, stepped through the sleep wakeup path. -/
theorem sched_interrupted_sleep_w :
    sched_sleep_enter ⟨true, 1⟩ = (⟨true, 1⟩, some (-1, EINTR)) ∧
    ((⟨false, 0⟩ : SchedCtx).interrupted = false →
      (⟨false, 0⟩ : SchedCtx) = (sched_sleep_wake ⟨true, 1⟩).1 ∧
      (⟨false, 0⟩ : SchedCtx).wc = 0) :=
  sched_interrupted_sleep ⟨true, 1⟩ ⟨false, 0⟩
    (by
      have h : (sched_sleep_wake ⟨true, 1⟩).1 = ⟨false, 0⟩ := by decide
      exact h ▸ SchedStep.sleep_wake ⟨true, 1⟩)
    (by decide)

end Microps

namespace Microps

/-! ## Internet checksum and UDP (src/udp.c)

Datagrams are byte lists (each element a byte value).  Multi-byte header
fields hold the stored (network-byte-order) values; the little-endian
targets lay a stored uint16_t value v out as the bytes v%256, v/256. -/

/-- IPPROTO numbers used by the stack (spec section 6: UDP checksum
pseudo-header carries protocol=17, TCP protocol=6). -/
def IP_PROTOCOL_UDP : Nat := 17

/-- See IP_PROTOCOL_UDP. -/
def IP_PROTOCOL_TCP : Nat := 6

/-- The 16-bit words the cksum16 loop reads from a byte sequence:
little-endian uint16_t loads, a trailing odd byte contributing its own
value (the final *(uint8_t *) addition). -/
def le16words : List Nat → List Nat
| [] => []
| [b] => [b]
| b0 :: b1 :: r => (b0 + 256 * b1) :: le16words r

/-- One round of the carry fold: while (sum >> 16) sum = (sum & 0xffff) + (sum >> 16). -/
def fold_step (s : Nat) : Nat := if s < 65536 then s else s % 65536 + s / 65536

/-- The carry-fold loop of cksum16.  The accumulator is a uint32_t, and
for every s < 2^32 the loop reaches its fixpoint within two rounds, so
three rounds of fold_step (which is the identity below 2^16) compute
exactly what the loop computes. -/
def fold_carry (s : Nat) : Nat := fold_step (fold_step (fold_step s))

/-- Modelled from the spec: util.c (cksum16) is not under src/.  The
Internet one's-complement checksum (spec section 8 property 1 and the
glossary pseudo-header entry): accumulate init plus the 16-bit words of
the byte sequence in uint32_t arithmetic, fold the carries, and return
the one's complement of the low 16 bits. -/
def cksum16 (bytes : List Nat) (init : Nat) : Nat :=
  65535 - fold_carry ((init + (le16words bytes).sum) % U32)

lemma fold_carry_le (s : Nat) (h : s < U32) : fold_carry s ≤ 65535 := by
  unfold fold_carry fold_step
  unfold U32 at h
  split_ifs <;> omega

lemma fold_carry_mod (s : Nat) : fold_carry s % 65535 = s % 65535 := by
  unfold fold_carry fold_step
  split_ifs <;> omega

lemma fold_carry_le_self (s : Nat) : fold_carry s ≤ s := by
  unfold fold_carry fold_step
  split_ifs <;> omega

lemma fold_carry_pos (s : Nat) (h : 0 < s) : 0 < fold_carry s := by
  unfold fold_carry fold_step
  split_ifs <;> omega

/-- Verification of a stored one's-complement checksum: adding the
complement c = ~fold(S) back into the sum makes the fold come out as
0xffff, so the complement of the verify fold is zero. -/
lemma cksum_complement (S : Nat) (hS : S + 65535 < U32) :
    fold_carry ((S + (65535 - fold_carry (S % U32))) % U32) = 65535 := by
  have hSU : S < U32 := by omega
  rw [Nat.mod_eq_of_lt hSU]
  have hfle : fold_carry S ≤ 65535 := fold_carry_le S hSU
  have hfmod : fold_carry S % 65535 = S % 65535 := fold_carry_mod S
  have hfself : fold_carry S ≤ S := fold_carry_le_self S
  have harg : S + (65535 - fold_carry S) < U32 := by omega
  rw [Nat.mod_eq_of_lt harg]
  have hTle := fold_carry_le (S + (65535 - fold_carry S)) harg
  have hTmod := fold_carry_mod (S + (65535 - fold_carry S))
  have hTpos := fold_carry_pos (S + (65535 - fold_carry S)) (by omega)
  omega

lemma le16words_sum_le : ∀ (l : List Nat), (∀ b ∈ l, b < 256) →
    (le16words l).sum ≤ 65535 * ((l.length + 1) / 2)
| [] => fun _ => by simp [le16words]
| [b] => fun h => by
    have hb := h b (by simp)
    simp [le16words]
    omega
| b0 :: b1 :: r => fun h => by
    have h0 := h b0 (by simp)
    have h1 := h b1 (by simp)
    have ih := le16words_sum_le r (fun b hb => h b (by simp [hb]))
    simp only [le16words, List.sum_cons, List.length_cons]
    have : (r.length + 2 + 1) / 2 = (r.length + 1) / 2 + 1 := by omega
    rw [this]
    omega

/-- The two little-endian bytes of a stored uint16_t value. -/
def bytes16le (v : Nat) : List Nat := [v % 256, v / 256 % 256]

/-- The 12 bytes of struct pseudo_hdr in memory: stored source and
destination addresses, the zero byte, the protocol byte, the stored
length field. -/
def pseudo_hdr_bytes (src dst proto lenField : Nat) : List Nat :=
  [src % 256, src / 256 % 256, src / 65536 % 256, src / 16777216 % 256,
   dst % 256, dst / 256 % 256, dst / 65536 % 256, dst / 16777216 % 256,
   0, proto] ++ bytes16le lenField

/-- struct ip_endpoint: address and port as stored values. -/
structure IpEndpoint where
  addr : Nat
  port : Nat
deriving Repr, DecidableEq

/-- A UDP datagram in memory: the four stored header fields followed by
the payload bytes. -/
def udp_datagram (srcPort dstPort lenField sumField : Nat) (data : List Nat) : List Nat :=
  bytes16le srcPort ++ bytes16le dstPort ++ bytes16le lenField ++ bytes16le sumField ++ data

/-- udp_output: length guard against the IP payload capacity, header
construction with hdr->len = hton16(total), pseudo-header-seeded checksum
computed with the checksum field still zero, then the datagram handed to
ip_output. -/
def udp_output (src dst : IpEndpoint) (data : List Nat) : Option (List Nat) :=
  if IP_PAYLOAD_SIZE_MAX - 8 < data.length then none
  else
    let total := (8 + data.length) % U16
    let psum := 65535 - cksum16 (pseudo_hdr_bytes src.addr dst.addr IP_PROTOCOL_UDP (hton16 total)) 0
    let sum := cksum16 (udp_datagram src.port dst.port (hton16 total) 0 data) psum
    some (udp_datagram src.port dst.port (hton16 total) sum data)

/-- The fields of struct udp_pcb that endpoint selection reads. -/
structure UdpPcb where
  state : Nat
  local_addr : Nat
  local_port : Nat
deriving Repr, DecidableEq

def UDP_PCB_STATE_OPEN : Nat := 1

/-- udp_pcb_select: the first OPEN PCB whose bound port matches and whose
bound address matches, is the wildcard, or is matched by a wildcard
destination. -/
def udp_pcb_select (pcbs : List UdpPcb) (addr port : Nat) : Option UdpPcb :=
  pcbs.find? (fun p => p.state == UDP_PCB_STATE_OPEN &&
    (p.local_addr == IP_ADDR_ANY || addr == IP_ADDR_ANY || p.local_addr == addr) &&
    p.local_port == port)

/-- struct udp_queue_entry: sender endpoint, payload length, payload. -/
structure UdpQueueEntry where
  foreign : IpEndpoint
  len : Nat
  data : List Nat
deriving Repr, DecidableEq

/-- Byte read from a datagram (reads past the end yield 0). -/
def get8 (data : List Nat) (i : Nat) : Nat := data.getD i 0

/-- Little-endian uint16_t load at byte offset i: the stored value. -/
def get16le (data : List Nat) (i : Nat) : Nat := get8 data i + 256 * get8 data (i + 1)

/-- udp_input: length and hdr->len checks, pseudo-header-seeded checksum
verification, endpoint selection, and construction of the receive-queue
entry carrying the sender endpoint and the payload. -/
def udp_input (data : List Nat) (src dst : Nat) (pcbs : List UdpPcb) : Option UdpQueueEntry :=
  if data.length < 8 then none
  else if data.length ≠ hton16 (get16le data 4) then none
  else
    let psum := 65535 - cksum16
      (pseudo_hdr_bytes src dst IP_PROTOCOL_UDP (hton16 (data.length % U16))) 0
    if cksum16 data psum ≠ 0 then none
    else
      match udp_pcb_select pcbs dst (get16le data 2) with
      | none => none
      | some _ =>
        let elen := (data.length - 8) % U16
        some { foreign := { addr := src, port := get16le data 0 }, len := elen,
               data := (data.drop 8).take elen }

/-- The head-entry delivery of udp_recvfrom: pop the head entry, truncate
to the caller buffer, return the copied length, the bytes and the sender
endpoint; an empty queue makes the caller sleep (none). -/
def udp_recvfrom (queue : List UdpQueueEntry) (size : Nat) :
    Option (Nat × List Nat × IpEndpoint) :=
  match queue with
  | [] => none
  | e :: _ => some (min size e.len, e.data.take (min size e.len), e.foreign)

lemma udp_datagram_length (p q l s : Nat) (data : List Nat) :
    (udp_datagram p q l s data).length = 8 + data.length := by
  simp [udp_datagram, bytes16le]
  omega

lemma le16words_udp_datagram (p q l s : Nat) (data : List Nat) :
    (le16words (udp_datagram p q l s data)).sum
      = p % 65536 + q % 65536 + l % 65536 + s % 65536 + (le16words data).sum := by
  simp [udp_datagram, bytes16le, le16words]
  omega

lemma get16le_udp_datagram_0 (p q l s : Nat) (data : List Nat) :
    get16le (udp_datagram p q l s data) 0 = p % 65536 := by
  simp [udp_datagram, bytes16le, get16le, get8]
  omega

lemma get16le_udp_datagram_2 (p q l s : Nat) (data : List Nat) :
    get16le (udp_datagram p q l s data) 2 = q % 65536 := by
  simp [udp_datagram, bytes16le, get16le, get8]
  omega

lemma get16le_udp_datagram_4 (p q l s : Nat) (data : List Nat) :
    get16le (udp_datagram p q l s data) 4 = l % 65536 := by
  simp [udp_datagram, bytes16le, get16le, get8]
  omega

lemma udp_datagram_drop8 (p q l s : Nat) (data : List Nat) :
    (udp_datagram p q l s data).drop 8 = data := by
  simp [udp_datagram, bytes16le]

lemma hton16_lt (v : Nat) : hton16 v < 65536 := by
  unfold hton16
  omega

lemma hton16_hton16 (v : Nat) (h : v < 65536) : hton16 (hton16 v) = v := by
  unfold hton16
  have h1 : (v % 256 * 256 + v / 256 % 256) % 256 = v / 256 % 256 := by omega
  have h2 : (v % 256 * 256 + v / 256 % 256) / 256 = v % 256 := by omega
  rw [h1, h2]
  omega

end Microps

namespace Microps

/-- Claim C7: a UDP datagram sent with udp_sendto by endpoint A bound to
(ip_A, port_A) to endpoint B bound to (ip_B, port_B) passes the receive
validation (including the pseudo-header-inclusive checksum), is enqueued
for B carrying the sender endpoint (ip_A, port_A) and the exact payload
bytes, and B recvfrom returns that sender endpoint with the payload
truncated to the caller buffer only when the buffer is smaller, the
returned length being the number of bytes copied. -/
theorem udp_round_trip (ipA portA ipB portB : Nat) (payload : List Nat) (size : Nat)
    (hlen : payload.length ≤ 65507) (hbytes : ∀ b ∈ payload, b < 256)
    (hpA : portA < 65536) (hpB : portB < 65536) :
    Option.bind (udp_output ⟨ipA, portA⟩ ⟨ipB, portB⟩ payload)
        (fun d => udp_input d ipA ipB [{ state := 1, local_addr := ipB, local_port := portB }])
      = some { foreign := ⟨ipA, portA⟩, len := payload.length, data := payload } ∧
    udp_recvfrom [{ foreign := ⟨ipA, portA⟩, len := payload.length, data := payload }] size
      = some (min size payload.length, payload.take (min size payload.length), ⟨ipA, portA⟩) := by
  have hguard : ¬(IP_PAYLOAD_SIZE_MAX - 8 < payload.length) := by
    unfold IP_PAYLOAD_SIZE_MAX
    omega
  have htot : (8 + payload.length) % U16 = 8 + payload.length := by
    unfold U16
    omega
  constructor
  · unfold udp_output
    rw [if_neg hguard]
    dsimp only
    rw [htot]
    set L := hton16 (8 + payload.length) with hL
    set psum := 65535 - cksum16 (pseudo_hdr_bytes ipA ipB IP_PROTOCOL_UDP L) 0 with hpsum
    set C := cksum16 (udp_datagram portA portB L 0 payload) psum with hC
    have hLlt : L < 65536 := hton16_lt _
    have hClt : C ≤ 65535 := by
      rw [hC]
      unfold cksum16
      omega
    have hpsumle : psum ≤ 65535 := by
      rw [hpsum]
      omega
    simp only [Option.bind]
    unfold udp_input
    rw [udp_datagram_length]
    rw [if_neg (by omega : ¬(8 + payload.length < 8))]
    have hlc : hton16 (get16le (udp_datagram portA portB L C payload) 4) = 8 + payload.length := by
      rw [get16le_udp_datagram_4, Nat.mod_eq_of_lt hLlt, hL,
        hton16_hton16 (8 + payload.length) (by omega)]
    rw [if_neg (by rw [hlc]; simp)]
    rw [htot, ← hL, ← hpsum]
    have hWp := le16words_sum_le payload hbytes
    have hhalf : (payload.length + 1) / 2 ≤ 32754 := by omega
    have hS : psum + 65535 + (portA + portB + L + (le16words payload).sum) < U32 := by
      unfold U32
      have : (le16words payload).sum ≤ 65535 * 32754 := by
        calc (le16words payload).sum ≤ 65535 * ((payload.length + 1) / 2) := hWp
        _ ≤ 65535 * 32754 := by omega
      omega
    have hck : cksum16 (udp_datagram portA portB L C payload) psum = 0 := by
      unfold cksum16
      rw [le16words_udp_datagram]
      rw [Nat.mod_eq_of_lt hpA, Nat.mod_eq_of_lt hpB, Nat.mod_eq_of_lt hLlt,
        Nat.mod_eq_of_lt (by omega : C < 65536)]
      have hCeq : C = 65535 - fold_carry
          ((psum + portA + portB + L + (le16words payload).sum) % U32) := by
        rw [hC]
        unfold cksum16
        rw [le16words_udp_datagram]
        rw [Nat.mod_eq_of_lt hpA, Nat.mod_eq_of_lt hpB, Nat.mod_eq_of_lt hLlt]
        norm_num
        ring_nf
      have harr : psum + (portA + portB + L + C + (le16words payload).sum)
          = (psum + portA + portB + L + (le16words payload).sum) + C := by ring
      rw [harr, hCeq]
      have := cksum_complement (psum + portA + portB + L + (le16words payload).sum)
        (by omega)
      omega
    rw [if_neg (by rw [hck]; simp)]
    have hsel : udp_pcb_select
        [{ state := 1, local_addr := ipB, local_port := portB }] ipB
        (get16le (udp_datagram portA portB L C payload) 2)
        = some { state := 1, local_addr := ipB, local_port := portB } := by
      rw [get16le_udp_datagram_2, Nat.mod_eq_of_lt hpB]
      simp [udp_pcb_select, UDP_PCB_STATE_OPEN, List.find?]
    rw [hsel]
    dsimp only
    rw [get16le_udp_datagram_0, Nat.mod_eq_of_lt hpA, udp_datagram_drop8]
    have helen : (8 + payload.length - 8) % U16 = payload.length := by
      unfold U16
      omega
    rw [helen, List.take_length]
  · rfl

/-- Witness for udp_round_trip: endpoint 1:49152 sends the two bytes
104, 105 to endpoint 2:7, whose recvfrom has a one-byte buffer. -/
theorem udp_round_trip_w :
    Option.bind (udp_output ⟨1, 49152⟩ ⟨2, 7⟩ [104, 105])
        (fun d => udp_input d 1 2 [{ state := 1, local_addr := 2, local_port := 7 }])
      = some { foreign := ⟨1, 49152⟩, len := 2, data := [104, 105] } ∧
    udp_recvfrom [{ foreign := ⟨1, 49152⟩, len := 2, data := [104, 105] }] 1
      = some (min 1 2, ([104, 105] : List Nat).take (min 1 2), ⟨1, 49152⟩) :=
  udp_round_trip 1 49152 2 7 [104, 105] 1 (by decide) (by decide) (by decide) (by decide)

end Microps

namespace Microps

/-- Big-endian uint16 read: ntoh16 of the little-endian uint16_t load. -/
def get16be (data : List Nat) (i : Nat) : Nat := get8 data i * 256 + get8 data (i + 1)

/-- Big-endian uint32 read: ntoh32 of the little-endian uint32_t load. -/
def get32be (data : List Nat) (i : Nat) : Nat :=
  ((get8 data i * 256 + get8 data (i + 1)) * 256 + get8 data (i + 2)) * 256 + get8 data (i + 3)

/-- The call tcp_input makes into tcp_segment_arrives: the normalised
segment record, the header flags, the payload length argument (the size_t
value len - hlen), and the endpoints. -/
structure TcpArrivesCall where
  seg : TcpSegmentInfo
  flags : Nat
  payload_len : Nat
  local_ep : IpEndpoint
  foreign : IpEndpoint
deriving Repr, DecidableEq

/-- tcp_input (src/tcp.c lines 675-747): reject segments shorter than the
20-byte header, segments whose pseudo-header-seeded checksum does not fold
to zero, and segments with a broadcast source or destination; then
assemble the segment record - the data offset is read but never validated,
and the payload length is computed as len - hlen in size_t arithmetic -
and invoke tcp_segment_arrives. -/
def tcp_input (data : List Nat) (src dst : Nat) : Option TcpArrivesCall :=
  if data.length < 20 then none
  else
    let psum := 65535 - cksum16
      (pseudo_hdr_bytes src dst IP_PROTOCOL_TCP (hton16 (data.length % U16))) 0
    if cksum16 data psum ≠ 0 then none
    else if src = IP_ADDR_BROADCAST ∨ dst = IP_ADDR_BROADCAST then none
    else
      let hlen := (get8 data 12 / 16) * 4
      let flg := get8 data 13
      let plen := (data.length + U64 - hlen) % U64
      let len0 := plen % U16
      let len1 := if TCP_FLG_ISSET flg TCP_FLG_SYN then (len0 + 1) % U16 else len0
      let len2 := if TCP_FLG_ISSET flg TCP_FLG_FIN then (len1 + 1) % U16 else len1
      some { seg := { seq := get32be data 4, ack := get32be data 8, len := len2,
                      wnd := get16be data 14, up := get16be data 18 },
             flags := flg,
             payload_len := plen,
             local_ep := { addr := dst, port := get16le data 2 },
             foreign := { addr := src, port := get16le data 0 } }

/-- Claim C9: tcp_input validates only the three conditions length >= 20,
checksum folding to zero, and no broadcast address; it never checks the
data-offset field, so a segment whose data offset times 4 exceeds the
received length still reaches tcp_segment_arrives, with a payload length
computed as len - hlen by size_t wrap-around - a value above 2^63. -/
theorem tcp_input_no_offset_check (data : List Nat) (src dst : Nat)
    (hbytes : ∀ b ∈ data, b < 256)
    (h20 : ¬(data.length < 20))
    (hck : cksum16 data (65535 - cksum16
      (pseudo_hdr_bytes src dst IP_PROTOCOL_TCP (hton16 (data.length % U16))) 0) = 0)
    (hsrc : src ≠ IP_ADDR_BROADCAST) (hdst : dst ≠ IP_ADDR_BROADCAST)
    (hoff : data.length < (get8 data 12 / 16) * 4) :
    ∃ call, tcp_input data src dst = some call ∧
      call.payload_len = (data.length + U64 - (get8 data 12 / 16) * 4) % U64 ∧
      9223372036854775808 < call.payload_len := by
  have h12 : get8 data 12 < 256 := by
    unfold get8
    rw [List.getD_eq_getElem?_getD]
    cases hx : data[12]? with
    | none => simp
    | some b =>
        have hmem : b ∈ data := by
          rcases List.getElem?_eq_some.mp hx with ⟨h, heq⟩
          rw [← heq]
          exact List.getElem_mem h
        simpa using hbytes b hmem
  unfold tcp_input
  rw [if_neg h20]
  dsimp only
  rw [if_neg (by rw [hck]; simp)]
  rw [if_neg (by simp [hsrc, hdst])]
  refine ⟨_, rfl, rfl, ?_⟩
  simp only
  have hhlen : (get8 data 12 / 16) * 4 ≤ 60 := by omega
  unfold U64
  omega

/-- Witness for tcp_input_no_offset_check: a 20-byte segment with data
offset 15 (hlen = 60), a valid checksum (src 1, dst 2), and no payload. -/
theorem tcp_input_no_offset_check_w :
    ∃ call, tcp_input
        [0, 0, 0, 0, 0, 0, 0, 0, 0, 0, 0, 0, 240, 0, 0, 0, 12, 229, 0, 0] 1 2 = some call ∧
      call.payload_len = (([0, 0, 0, 0, 0, 0, 0, 0, 0, 0, 0, 0, 240, 0, 0, 0, 12, 229, 0, 0] :
          List Nat).length + U64
        - (get8 [0, 0, 0, 0, 0, 0, 0, 0, 0, 0, 0, 0, 240, 0, 0, 0, 12, 229, 0, 0] 12 / 16) * 4)
          % U64 ∧
      9223372036854775808 < call.payload_len :=
  tcp_input_no_offset_check
    [0, 0, 0, 0, 0, 0, 0, 0, 0, 0, 0, 0, 240, 0, 0, 0, 12, 229, 0, 0] 1 2
    (by decide) (by decide) (by decide) (by decide) (by decide) (by decide)

end Microps
